import Mathlib

/-!
Shallow embedding of the anonymous-voting contract `src/VotingSystem.sol`
(Solidity 0.8.19, OpenZeppelin v5 `Ownable` / `Pausable` / `ReentrancyGuard`)
together with the relayer-selection helpers of the JavaScript backend
(`selectRandomRelayer` in the backend server file, `getRandomRelayer` in the
relayer-management script).

Modelling conventions:
* `uint256` values (addresses included) are `Nat`; the vote counters can never
  reach `2^256` within a reachable trace (each successful vote consumes a fresh
  nullifier and Solidity 0.8 checked arithmetic would revert, i.e. leave state
  unchanged, at the bound), so wrap-around is not modelled.
* Solidity `mapping`s are total functions with the zero default.
* A reverting call is an `Except.error`; the EVM rolls back every storage write
  of a reverted call, so the transaction-level semantics `commit` keeps the
  pre-state on `error`.
* The external `ISemaphoreVerifier.verifyProof` staticcall is abstracted by the
  Boolean `proofValid` carried on each call: the contract only branches on the
  verifier's verdict, and the proof points `a`, `b`, `c` and `merkleTreeDepth`
  flow only into that external call, so they are not carried separately.
* `nonReentrant` has no effect in this single-call model (the only external
  call, the verifier, is a view call).
-/

namespace VotingSystem

/-- The named revert reasons of `VotingSystem.sol`, the OpenZeppelin custom
errors its inherited modifiers can raise, and `require` message strings. -/
inductive Err where
  | VotingNotActive
  | VotingAlreadyInitialized
  | InvalidCandidate
  | NullifierAlreadyUsed
  | UnauthorizedRelayer
  | InvalidProof
  | InvalidTimeRange
  | EnforcedPause
  | ExpectedPause
  | OwnableUnauthorizedAccount
  | OwnableInvalidOwner
  | RequireFail (msg : String)
  deriving Repr, DecidableEq

/-- Storage of the `VotingSystem` contract (plus the `Ownable` owner slot and
the `Pausable` flag). -/
structure State where
  owner : Nat
  paused : Bool
  votingGroupId : Nat
  votingStartTime : Nat
  votingEndTime : Nat
  votingInitialized : Bool
  voteCounts : Nat → Nat
  usedNullifiers : Nat → Bool
  totalVotes : Nat
  candidateCount : Nat
  authorizedRelayers : Nat → Bool
  relayerAddresses : List Nat

/-- `publicSignals` array: `[signal, nullifierHash, merkleRoot, externalNullifier]`. -/
structure PublicSignals where
  signal : Nat
  nullifier : Nat
  merkleRoot : Nat
  externalNullifier : Nat
  deriving Repr, DecidableEq

/-- The `VoteCast` event emitted by a successful `castVote`. -/
structure VoteCastEvent where
  candidateId : Nat
  nullifierHash : Nat
  relayer : Nat
  timestamp : Nat
  deriving Repr, DecidableEq

/-- Contract storage right after the constructor ran: all mappings empty, all
counters zero, not paused, owner as supplied to `Ownable`. -/
def initState (initialOwner : Nat) : State :=
  { owner := initialOwner
    paused := false
    votingGroupId := 0
    votingStartTime := 0
    votingEndTime := 0
    votingInitialized := false
    voteCounts := fun _ => 0
    usedNullifiers := fun _ => false
    totalVotes := 0
    candidateCount := 0
    authorizedRelayers := fun _ => false
    relayerAddresses := [] }

/-- `initializeVoting` (`onlyOwner`): one-time round configuration. -/
def initializeVoting (s : State) (sender blockTimestamp groupId startTime endTime
    candCount : Nat) : Except Err State :=
  if sender ≠ s.owner then .error .OwnableUnauthorizedAccount
  else if s.votingInitialized then .error .VotingAlreadyInitialized
  else if startTime ≥ endTime ∨ startTime < blockTimestamp then .error .InvalidTimeRange
  else if candCount = 0 then .error .InvalidCandidate
  else .ok { s with
    votingGroupId := groupId
    votingStartTime := startTime
    votingEndTime := endTime
    candidateCount := candCount
    votingInitialized := true }

/-- `addRelayer` (`onlyOwner`). -/
def addRelayer (s : State) (sender relayer : Nat) : Except Err State :=
  if sender ≠ s.owner then .error .OwnableUnauthorizedAccount
  else if relayer = 0 then .error (.RequireFail "Invalid relayer address")
  else if s.authorizedRelayers relayer then .error (.RequireFail "Relayer already exists")
  else .ok { s with
    authorizedRelayers := fun a => if a = relayer then true else s.authorizedRelayers a
    relayerAddresses := s.relayerAddresses ++ [relayer] }

/-- The removal loop of `removeRelayer`: at the first index holding `r`, copy
the last array element into that slot and `pop` the last element (`break`
afterwards); if `r` is absent the loop falls through leaving the array as is. -/
def swapRemoveFirst (l : List Nat) (r : Nat) : List Nat :=
  if l.contains r then (l.set (l.findIdx (· == r)) (l.getLastD 0)).dropLast else l

/-- `removeRelayer` (`onlyOwner`). -/
def removeRelayer (s : State) (sender relayer : Nat) : Except Err State :=
  if sender ≠ s.owner then .error .OwnableUnauthorizedAccount
  else if ¬ s.authorizedRelayers relayer then .error (.RequireFail "Relayer not found")
  else .ok { s with
    authorizedRelayers := fun a => if a = relayer then false else s.authorizedRelayers a
    relayerAddresses := swapRemoveFirst s.relayerAddresses relayer }

/-- `castVote`: modifiers run in declaration order — `nonReentrant` (no effect
here), `whenNotPaused` (`EnforcedPause`), `onlyDuringVoting`
(`VotingNotActive`), `onlyAuthorizedRelayer` (`UnauthorizedRelayer`) — then the
body's checks, the external verifier call, and, on success, the three storage
writes plus the `VoteCast` event. -/
def castVote (s : State) (sender blockTimestamp candidateId nullifierHash : Nat)
    (publicSignals : PublicSignals) (proofValid : Bool) :
    Except Err (State × VoteCastEvent) :=
  if s.paused then .error .EnforcedPause
  else if blockTimestamp < s.votingStartTime ∨ s.votingEndTime < blockTimestamp then
    .error .VotingNotActive
  else if ¬ s.authorizedRelayers sender then .error .UnauthorizedRelayer
  else if candidateId ≥ s.candidateCount then .error .InvalidCandidate
  else if candidateId ≠ publicSignals.signal then .error .InvalidCandidate
  else if s.usedNullifiers nullifierHash then .error .NullifierAlreadyUsed
  else if ¬ proofValid then .error .InvalidProof
  else .ok
    ({ s with
        usedNullifiers := fun x => if x = nullifierHash then true else s.usedNullifiers x
        voteCounts := fun c => if c = candidateId then s.voteCounts c + 1 else s.voteCounts c
        totalVotes := s.totalVotes + 1 },
      { candidateId := candidateId
        nullifierHash := nullifierHash
        relayer := sender
        timestamp := blockTimestamp })

/-- `pauseVoting` (`onlyOwner`): OpenZeppelin `_pause` carries `whenNotPaused`. -/
def pauseVoting (s : State) (sender : Nat) : Except Err State :=
  if sender ≠ s.owner then .error .OwnableUnauthorizedAccount
  else if s.paused then .error .EnforcedPause
  else .ok { s with paused := true }

/-- `unpauseVoting` (`onlyOwner`): OpenZeppelin `_unpause` carries `whenPaused`. -/
def unpauseVoting (s : State) (sender : Nat) : Except Err State :=
  if sender ≠ s.owner then .error .OwnableUnauthorizedAccount
  else if ¬ s.paused then .error .ExpectedPause
  else .ok { s with paused := false }

/-- Inherited `Ownable.transferOwnership`. -/
def transferOwnership (s : State) (sender newOwner : Nat) : Except Err State :=
  if sender ≠ s.owner then .error .OwnableUnauthorizedAccount
  else if newOwner = 0 then .error .OwnableInvalidOwner
  else .ok { s with owner := newOwner }

/-- Inherited `Ownable.renounceOwnership`. -/
def renounceOwnership (s : State) (sender : Nat) : Except Err State :=
  if sender ≠ s.owner then .error .OwnableUnauthorizedAccount
  else .ok { s with owner := 0 }

/-- View `isVotingActive`. -/
def isVotingActive (s : State) (blockTimestamp : Nat) : Bool :=
  s.votingInitialized
    && decide (s.votingStartTime ≤ blockTimestamp)
    && decide (blockTimestamp ≤ s.votingEndTime)
    && ! s.paused

/-- View `getVoteCount`. -/
def getVoteCount (s : State) (candidateId : Nat) : Nat := s.voteCounts candidateId

/-- View `getAllVoteCounts`: the tally vector indexed by candidate id. -/
def getAllVoteCounts (s : State) : List Nat :=
  (List.range s.candidateCount).map s.voteCounts

/-- View `isNullifierUsed`. -/
def isNullifierUsed (s : State) (nullifierHash : Nat) : Bool :=
  s.usedNullifiers nullifierHash

/-- View `getRelayers`. -/
def getRelayers (s : State) : List Nat := s.relayerAddresses

/-- Sum of the tally over all candidate ids in `[0, candidateCount)`. -/
def tallySum (s : State) : Nat :=
  Finset.sum (Finset.range s.candidateCount) s.voteCounts

/-- One invocation of a mutating entry point, with the call environment
(`msg.sender`, `block.timestamp`, the verifier verdict) it runs under. -/
inductive Op where
  | opInitializeVoting (sender blockTimestamp groupId startTime endTime candCount : Nat)
  | opAddRelayer (sender relayer : Nat)
  | opRemoveRelayer (sender relayer : Nat)
  | opCastVote (sender blockTimestamp candidateId nullifierHash : Nat)
      (publicSignals : PublicSignals) (proofValid : Bool)
  | opPauseVoting (sender : Nat)
  | opUnpauseVoting (sender : Nat)
  | opTransferOwnership (sender newOwner : Nat)
  | opRenounceOwnership (sender : Nat)
  deriving Repr, DecidableEq

/-- Dispatch one call against the current storage. -/
def step (s : State) (op : Op) : Except Err State :=
  match op with
  | .opInitializeVoting sender ts g st en c => initializeVoting s sender ts g st en c
  | .opAddRelayer sender r => addRelayer s sender r
  | .opRemoveRelayer sender r => removeRelayer s sender r
  | .opCastVote sender ts cid n ps pv => (castVote s sender ts cid n ps pv).map Prod.fst
  | .opPauseVoting sender => pauseVoting s sender
  | .opUnpauseVoting sender => unpauseVoting s sender
  | .opTransferOwnership sender o => transferOwnership s sender o
  | .opRenounceOwnership sender => renounceOwnership s sender

/-- Transaction-level semantics of a revert: a failed call leaves storage
exactly as it was. -/
def commit (s : State) : Except Err State → State
  | .ok s2 => s2
  | .error _ => s

/-- Storage after one call (reverts roll back). -/
def applyOp (s : State) (op : Op) : State := commit s (step s op)

/-- Storage after a sequence of calls. -/
def run (s : State) (ops : List Op) : State := ops.foldl applyOp s

/-- Whether a call result is a success. -/
def exceptOk {ε α : Type} : Except ε α → Bool
  | .ok _ => true
  | .error _ => false

/-- The failure reason of a call result, if any. -/
def errOf {ε α : Type} : Except ε α → Option ε
  | .ok _ => none
  | .error e => some e

/-- The value of a successful call result, if any. -/
def okOf {ε α : Type} : Except ε α → Option α
  | .ok a => some a
  | .error _ => none

/-- Whether an op is a `castVote` call. -/
def isCast : Op → Bool
  | .opCastVote .. => true
  | _ => false

/-- The nullifier argument of a `castVote` op. -/
def castNullifier : Op → Option Nat
  | .opCastVote _ _ _ n _ _ => some n
  | _ => none

/-- Whether an op only touches the `Pausable` flag or the `Ownable` owner slot. -/
def isAdminOp : Op → Bool
  | .opPauseVoting _ => true
  | .opUnpauseVoting _ => true
  | .opTransferOwnership _ _ => true
  | .opRenounceOwnership _ => true
  | _ => false

/-- Number of successful `castVote` calls along a trace. -/
def succCount : State → List Op → Nat
  | _, [] => 0
  | s, op :: rest =>
    (if isCast op && exceptOk (step s op) then 1 else 0) + succCount (applyOp s op) rest

/-- Number of successful `castVote` calls carrying nullifier `n` along a trace. -/
def succCountWith (n : Nat) : State → List Op → Nat
  | _, [] => 0
  | s, op :: rest =>
    (if castNullifier op == some n && exceptOk (step s op) then 1 else 0)
      + succCountWith n (applyOp s op) rest

/-- Invariant of every reachable contract state: the tally sums to
`totalVotes`; an unconfigured ledger is inert (zero counters and an empty
`[0,0]` window); a configured window is well-ordered; and the relayer array
lists exactly the authorized addresses, once each, never the zero address. -/
def Inv (s : State) : Prop :=
  tallySum s = s.totalVotes
  ∧ (s.votingInitialized = false →
      s.candidateCount = 0 ∧ s.totalVotes = 0 ∧ (∀ i, s.voteCounts i = 0)
      ∧ s.votingStartTime = 0 ∧ s.votingEndTime = 0)
  ∧ (s.votingInitialized = true → s.votingStartTime < s.votingEndTime)
  ∧ (∀ a, s.relayerAddresses.count a = if s.authorizedRelayers a = true then 1 else 0)
  ∧ s.authorizedRelayers 0 = false

/-- The backend's `selectRandomRelayer` helper: throws
`'No relayer wallets available'` on an empty pool, otherwise returns
`relayerWallets[Math.floor(Math.random() * relayerWallets.length)]`; `rand`
stands for the `Math.random()` sample in `[0, 1)`. -/
def selectRandomRelayer (relayerWallets : List Nat) (rand : Rat) : Except String Nat :=
  if relayerWallets.length = 0 then .error "No relayer wallets available"
  else .ok (relayerWallets.getD (Int.floor (rand * relayerWallets.length)).toNat 0)

/-- The relayer-management script's `getRandomRelayer`: throws
`'No authorized relayers found'` when `getRelayers()` returned an empty array,
otherwise returns `relayers[Math.floor(Math.random() * relayers.length)]`. -/
def getRandomRelayer (relayers : List Nat) (rand : Rat) : Except String Nat :=
  if relayers.length = 0 then .error "No authorized relayers found"
  else .ok (relayers.getD (Int.floor (rand * relayers.length)).toNat 0)

/-! ## Basic call/transaction lemmas -/

theorem applyOp_of_error {s : State} {op : Op} {e : Err} (h : step s op = .error e) :
    applyOp s op = s := by
  simp [applyOp, h, commit]

theorem applyOp_of_ok {s s2 : State} {op : Op} (h : step s op = .ok s2) :
    applyOp s op = s2 := by
  simp [applyOp, h, commit]

/-- Everything a successful `castVote` call implies: all seven guards passed
and the result is exactly the three storage writes plus the `VoteCast` event. -/
theorem castVote_ok_elim {s : State} {sender ts cid n : Nat} {ps : PublicSignals}
    {pv : Bool} {s2 : State} {ev : VoteCastEvent}
    (h : castVote s sender ts cid n ps pv = .ok (s2, ev)) :
    s.paused = false ∧ s.votingStartTime ≤ ts ∧ ts ≤ s.votingEndTime
    ∧ s.authorizedRelayers sender = true ∧ cid < s.candidateCount ∧ cid = ps.signal
    ∧ s.usedNullifiers n = false ∧ pv = true
    ∧ s2 = { s with
        usedNullifiers := fun x => if x = n then true else s.usedNullifiers x
        voteCounts := fun c => if c = cid then s.voteCounts c + 1 else s.voteCounts c
        totalVotes := s.totalVotes + 1 }
    ∧ ev = ⟨cid, n, sender, ts⟩ := by
  unfold castVote at h
  split_ifs at h with h1 h2 h3 h4 h5 h6 h7
  simp only [Bool.not_eq_true] at h1 h6
  push_neg at h2 h4 h5
  rw [Except.ok.injEq, Prod.mk.injEq] at h
  exact ⟨h1, h2.1, h2.2, h3, h4, h5, h6, h7, h.1.symm, h.2.symm⟩

theorem applyOp_of_fail {s : State} {op : Op} (h : exceptOk (step s op) = false) :
    applyOp s op = s := by
  cases hstep : step s op with
  | ok s2 => rw [hstep] at h; simp [exceptOk] at h
  | error e => exact applyOp_of_error hstep

/-- A `castVote` transaction either reverts (state kept) or commits exactly the
three storage writes, with the candidate in range and the nullifier fresh. -/
theorem applyOp_cast_char (s : State) (sender ts cid n : Nat) (ps : PublicSignals)
    (pv : Bool) :
    (exceptOk (step s (.opCastVote sender ts cid n ps pv)) = false
      ∧ applyOp s (.opCastVote sender ts cid n ps pv) = s)
  ∨ (exceptOk (step s (.opCastVote sender ts cid n ps pv)) = true
      ∧ applyOp s (.opCastVote sender ts cid n ps pv) = { s with
          usedNullifiers := fun x => if x = n then true else s.usedNullifiers x
          voteCounts := fun c => if c = cid then s.voteCounts c + 1 else s.voteCounts c
          totalVotes := s.totalVotes + 1 }
      ∧ s.usedNullifiers n = false ∧ cid < s.candidateCount ∧ s.paused = false
      ∧ s.votingStartTime ≤ ts ∧ ts ≤ s.votingEndTime
      ∧ s.authorizedRelayers sender = true) := by
  cases hc : castVote s sender ts cid n ps pv with
  | error e =>
    have hstep : step s (.opCastVote sender ts cid n ps pv) = .error e := by
      simp [step, hc, Except.map]
    exact Or.inl ⟨by simp [hstep, exceptOk], applyOp_of_error hstep⟩
  | ok p =>
    obtain ⟨s2, ev⟩ := p
    obtain ⟨hp, hts1, hts2, hauth, h4, -, h6, -, hs2, -⟩ := castVote_ok_elim hc
    have hstep : step s (.opCastVote sender ts cid n ps pv) = .ok s2 := by
      simp [step, hc, Except.map]
    exact Or.inr ⟨by simp [hstep, exceptOk], by rw [applyOp_of_ok hstep, hs2],
      h6, h4, hp, hts1, hts2, hauth⟩

/-- An `addRelayer` transaction either reverts or appends a fresh, nonzero
relayer and flips its authorization flag. -/
theorem applyOp_add_char (s : State) (sender r : Nat) :
    (exceptOk (step s (.opAddRelayer sender r)) = false
      ∧ applyOp s (.opAddRelayer sender r) = s)
  ∨ (applyOp s (.opAddRelayer sender r) = { s with
        authorizedRelayers := fun a => if a = r then true else s.authorizedRelayers a
        relayerAddresses := s.relayerAddresses ++ [r] }
      ∧ r ≠ 0 ∧ s.authorizedRelayers r = false ∧ sender = s.owner) := by
  by_cases hown : sender = s.owner
  · by_cases hz : r = 0
    · refine Or.inl ⟨?_, ?_⟩ <;>
        simp [step, applyOp, addRelayer, hown, hz, exceptOk, commit]
    · by_cases hauth : s.authorizedRelayers r = true
      · refine Or.inl ⟨?_, ?_⟩ <;>
          simp [step, applyOp, addRelayer, hown, hz, hauth, exceptOk, commit]
      · refine Or.inr ⟨?_, hz, by simpa using hauth, hown⟩
        simp [applyOp, step, addRelayer, hown, hz, hauth, commit]
  · refine Or.inl ⟨?_, ?_⟩ <;>
      simp [step, applyOp, addRelayer, hown, exceptOk, commit]

/-- A `removeRelayer` transaction either reverts or swap-removes an authorized
relayer and clears its authorization flag. -/
theorem applyOp_remove_char (s : State) (sender r : Nat) :
    (exceptOk (step s (.opRemoveRelayer sender r)) = false
      ∧ applyOp s (.opRemoveRelayer sender r) = s)
  ∨ (applyOp s (.opRemoveRelayer sender r) = { s with
        authorizedRelayers := fun a => if a = r then false else s.authorizedRelayers a
        relayerAddresses := swapRemoveFirst s.relayerAddresses r }
      ∧ s.authorizedRelayers r = true ∧ sender = s.owner) := by
  by_cases hown : sender = s.owner
  · by_cases hauth : s.authorizedRelayers r = true
    · refine Or.inr ⟨?_, hauth, hown⟩
      simp [applyOp, step, removeRelayer, hown, hauth, commit]
    · refine Or.inl ⟨?_, ?_⟩ <;>
        simp [step, applyOp, removeRelayer, hown, hauth, exceptOk, commit]
  · refine Or.inl ⟨?_, ?_⟩ <;>
      simp [step, applyOp, removeRelayer, hown, exceptOk, commit]

/-- An `initializeVoting` transaction either reverts or, from an unconfigured
state and with the owner calling, installs a well-formed configuration. -/
theorem applyOp_init_char (s : State) (sender ts g st en c : Nat) :
    (exceptOk (step s (.opInitializeVoting sender ts g st en c)) = false
      ∧ applyOp s (.opInitializeVoting sender ts g st en c) = s)
  ∨ (applyOp s (.opInitializeVoting sender ts g st en c) = { s with
        votingGroupId := g
        votingStartTime := st
        votingEndTime := en
        candidateCount := c
        votingInitialized := true }
      ∧ s.votingInitialized = false ∧ st < en ∧ ts ≤ st ∧ c ≠ 0 ∧ sender = s.owner) := by
  by_cases hown : sender = s.owner
  · by_cases hinit : s.votingInitialized = true
    · refine Or.inl ⟨?_, ?_⟩ <;>
        simp [step, applyOp, initializeVoting, hown, hinit, exceptOk, commit]
    · by_cases htime : st ≥ en ∨ st < ts
      · refine Or.inl ⟨?_, ?_⟩ <;>
          simp [step, applyOp, initializeVoting, hown, hinit, htime, exceptOk, commit]
      · by_cases hc : c = 0
        · refine Or.inl ⟨?_, ?_⟩ <;>
            simp [step, applyOp, initializeVoting, hown, hinit, htime, hc, exceptOk, commit]
        · push_neg at htime
          refine Or.inr ⟨?_, by simpa using hinit, htime.1, htime.2, hc, hown⟩
          simp only [applyOp, step, initializeVoting]
          rw [if_neg (by simp [hown]), if_neg (by simp_all),
            if_neg (by push_neg; exact htime), if_neg hc]
          rfl
  · refine Or.inl ⟨?_, ?_⟩ <;>
      simp [step, applyOp, initializeVoting, hown, exceptOk, commit]

/-- A pause/unpause/ownership transaction can only change the `paused` flag and
the owner slot: every other storage field is preserved. -/
theorem applyOp_admin_char (s : State) (op : Op) (h : isAdminOp op = true) :
    (applyOp s op).votingGroupId = s.votingGroupId
  ∧ (applyOp s op).votingStartTime = s.votingStartTime
  ∧ (applyOp s op).votingEndTime = s.votingEndTime
  ∧ (applyOp s op).votingInitialized = s.votingInitialized
  ∧ (applyOp s op).voteCounts = s.voteCounts
  ∧ (applyOp s op).usedNullifiers = s.usedNullifiers
  ∧ (applyOp s op).totalVotes = s.totalVotes
  ∧ (applyOp s op).candidateCount = s.candidateCount
  ∧ (applyOp s op).authorizedRelayers = s.authorizedRelayers
  ∧ (applyOp s op).relayerAddresses = s.relayerAddresses := by
  cases op with
  | opPauseVoting sender =>
    simp only [applyOp, step, pauseVoting]
    split_ifs <;> simp [commit]
  | opUnpauseVoting sender =>
    simp only [applyOp, step, unpauseVoting]
    split_ifs <;> simp [commit]
  | opTransferOwnership sender o =>
    simp only [applyOp, step, transferOwnership]
    split_ifs <;> simp [commit]
  | opRenounceOwnership sender =>
    simp only [applyOp, step, renounceOwnership]
    split_ifs <;> simp [commit]
  | opInitializeVoting _ _ _ _ _ _ => simp [isAdminOp] at h
  | opAddRelayer _ _ => simp [isAdminOp] at h
  | opRemoveRelayer _ _ => simp [isAdminOp] at h
  | opCastVote _ _ _ _ _ _ => simp [isAdminOp] at h

/-- Every op is a configuration call, a relayer-registry call, a vote, or an
admin (pause/ownership) call. -/
theorem op_shape (op : Op) :
    (∃ sender ts g st en c, op = .opInitializeVoting sender ts g st en c)
  ∨ (∃ sender r, op = .opAddRelayer sender r)
  ∨ (∃ sender r, op = .opRemoveRelayer sender r)
  ∨ (∃ sender ts cid n ps pv, op = .opCastVote sender ts cid n ps pv)
  ∨ isAdminOp op = true := by
  cases op with
  | opInitializeVoting a b c d e f => exact Or.inl ⟨a, b, c, d, e, f, rfl⟩
  | opAddRelayer a b => exact Or.inr (Or.inl ⟨a, b, rfl⟩)
  | opRemoveRelayer a b => exact Or.inr (Or.inr (Or.inl ⟨a, b, rfl⟩))
  | opCastVote a b c d e f => exact Or.inr (Or.inr (Or.inr (Or.inl ⟨a, b, c, d, e, f, rfl⟩)))
  | opPauseVoting a => exact Or.inr (Or.inr (Or.inr (Or.inr rfl)))
  | opUnpauseVoting a => exact Or.inr (Or.inr (Or.inr (Or.inr rfl)))
  | opTransferOwnership a b => exact Or.inr (Or.inr (Or.inr (Or.inr rfl)))
  | opRenounceOwnership a => exact Or.inr (Or.inr (Or.inr (Or.inr rfl)))

theorem castNullifier_some {op : Op} {n : Nat} (h : castNullifier op = some n) :
    ∃ sender ts cid ps pv, op = .opCastVote sender ts cid n ps pv := by
  cases op with
  | opCastVote a b c d e f =>
    simp only [castNullifier, Option.some.injEq] at h
    exact ⟨a, b, c, e, f, by rw [h]⟩
  | opInitializeVoting a b c d e f => simp [castNullifier] at h
  | opAddRelayer a b => simp [castNullifier] at h
  | opRemoveRelayer a b => simp [castNullifier] at h
  | opPauseVoting a => simp [castNullifier] at h
  | opUnpauseVoting a => simp [castNullifier] at h
  | opTransferOwnership a b => simp [castNullifier] at h
  | opRenounceOwnership a => simp [castNullifier] at h

/-- Once a nullifier is marked used, no single op unmarks it. -/
theorem used_mono (s : State) (op : Op) (n : Nat) (h : s.usedNullifiers n = true) :
    (applyOp s op).usedNullifiers n = true := by
  rcases op_shape op with ⟨a, b, c, d, e, f, rfl⟩ | ⟨a, b, rfl⟩ | ⟨a, b, rfl⟩
    | ⟨a, b, c, d, e, f, rfl⟩ | hadm
  · rcases applyOp_init_char s a b c d e f with ⟨-, hs⟩ | ⟨hs, -⟩ <;> rw [hs] <;> exact h
  · rcases applyOp_add_char s a b with ⟨-, hs⟩ | ⟨hs, -⟩ <;> rw [hs] <;> exact h
  · rcases applyOp_remove_char s a b with ⟨-, hs⟩ | ⟨hs, -⟩ <;> rw [hs] <;> exact h
  · rcases applyOp_cast_char s a b c d e f with ⟨-, hs⟩ | ⟨-, hs, -⟩ <;> rw [hs]
    · exact h
    · by_cases hnd : n = d <;> simp [hnd, h]
  · rw [(applyOp_admin_char s _ hadm).2.2.2.2.2.1]
    exact h

/-- An op that is not a successful `castVote` carrying `n` leaves the
used-nullifier flag of `n` unchanged. -/
theorem used_preserved {s : State} {op : Op} {n : Nat}
    (h : castNullifier op = some n → exceptOk (step s op) = false) :
    (applyOp s op).usedNullifiers n = s.usedNullifiers n := by
  rcases op_shape op with ⟨a, b, c, d, e, f, rfl⟩ | ⟨a, b, rfl⟩ | ⟨a, b, rfl⟩
    | ⟨a, b, c, d, e, f, rfl⟩ | hadm
  · rcases applyOp_init_char s a b c d e f with ⟨-, hs⟩ | ⟨hs, -⟩ <;> rw [hs]
  · rcases applyOp_add_char s a b with ⟨-, hs⟩ | ⟨hs, -⟩ <;> rw [hs]
  · rcases applyOp_remove_char s a b with ⟨-, hs⟩ | ⟨hs, -⟩ <;> rw [hs]
  · by_cases hnd : d = n
    · subst hnd
      rw [applyOp_of_fail (h rfl)]
    · rcases applyOp_cast_char s a b c d e f with ⟨-, hs⟩ | ⟨-, hs, -⟩
      · rw [hs]
      · rw [hs]
        have hnd2 : ¬ n = d := fun hh => hnd hh.symm
        simp [hnd2]
  · rw [(applyOp_admin_char s _ hadm).2.2.2.2.2.1]

/-- A successful `castVote` marks exactly its nullifier, which was fresh. -/
theorem cast_ok_used {s : State} {sender ts cid n : Nat} {ps : PublicSignals}
    {pv : Bool}
    (hok : exceptOk (step s (.opCastVote sender ts cid n ps pv)) = true) :
    (applyOp s (.opCastVote sender ts cid n ps pv)).usedNullifiers n = true
    ∧ s.usedNullifiers n = false := by
  rcases applyOp_cast_char s sender ts cid n ps pv with ⟨hf, -⟩ | ⟨-, hs, hfresh, -⟩
  · rw [hf] at hok; cases hok
  · exact ⟨by rw [hs]; simp, hfresh⟩

/-- `castVote` with a consumed nullifier never succeeds. -/
theorem cast_fail_of_used {s : State} {sender ts cid n : Nat} {ps : PublicSignals}
    {pv : Bool} (h : s.usedNullifiers n = true) :
    exceptOk (step s (.opCastVote sender ts cid n ps pv)) = false := by
  rcases applyOp_cast_char s sender ts cid n ps pv with ⟨hf, -⟩ | ⟨-, -, hfresh, -⟩
  · exact hf
  · rw [h] at hfresh; cases hfresh

/-- `totalVotes` grows by one on a successful vote and is untouched otherwise. -/
theorem totalVotes_applyOp (s : State) (op : Op) :
    (applyOp s op).totalVotes
      = s.totalVotes + (if isCast op && exceptOk (step s op) then 1 else 0) := by
  rcases op_shape op with ⟨a, b, c, d, e, f, rfl⟩ | ⟨a, b, rfl⟩ | ⟨a, b, rfl⟩
    | ⟨a, b, c, d, e, f, rfl⟩ | hadm
  · rcases applyOp_init_char s a b c d e f with ⟨-, hs⟩ | ⟨hs, -⟩ <;>
      rw [hs] <;> simp [isCast]
  · rcases applyOp_add_char s a b with ⟨-, hs⟩ | ⟨hs, -⟩ <;> rw [hs] <;> simp [isCast]
  · rcases applyOp_remove_char s a b with ⟨-, hs⟩ | ⟨hs, -⟩ <;> rw [hs] <;> simp [isCast]
  · rcases applyOp_cast_char s a b c d e f with ⟨hf, hs⟩ | ⟨hok, hs, -⟩ <;> rw [hs]
    · simp [isCast, hf]
    · simp [isCast, hok]
  · have hnc : isCast op = false := by
      cases op <;> simp_all [isAdminOp, isCast]
    rw [(applyOp_admin_char s _ hadm).2.2.2.2.2.2.1]
    simp [hnc]

/-- No op ever decrements a candidate's count. -/
theorem voteCounts_mono (s : State) (op : Op) (i : Nat) :
    s.voteCounts i ≤ (applyOp s op).voteCounts i := by
  rcases op_shape op with ⟨a, b, c, d, e, f, rfl⟩ | ⟨a, b, rfl⟩ | ⟨a, b, rfl⟩
    | ⟨a, b, c, d, e, f, rfl⟩ | hadm
  · rcases applyOp_init_char s a b c d e f with ⟨-, hs⟩ | ⟨hs, -⟩ <;> rw [hs]
  · rcases applyOp_add_char s a b with ⟨-, hs⟩ | ⟨hs, -⟩ <;> rw [hs]
  · rcases applyOp_remove_char s a b with ⟨-, hs⟩ | ⟨hs, -⟩ <;> rw [hs]
  · rcases applyOp_cast_char s a b c d e f with ⟨-, hs⟩ | ⟨-, hs, -⟩ <;> rw [hs]
    by_cases hic : i = c <;> simp [hic]
  · rw [(applyOp_admin_char s _ hadm).2.2.2.2.1]

/-- No op ever decrements `totalVotes`. -/
theorem totalVotes_mono (s : State) (op : Op) :
    s.totalVotes ≤ (applyOp s op).totalVotes := by
  rw [totalVotes_applyOp]
  exact Nat.le_add_right _ _

/-- Once the round is configured, no op changes the configuration. -/
theorem config_applyOp (s : State) (op : Op) (h : s.votingInitialized = true) :
    (applyOp s op).votingInitialized = true
  ∧ (applyOp s op).votingGroupId = s.votingGroupId
  ∧ (applyOp s op).votingStartTime = s.votingStartTime
  ∧ (applyOp s op).votingEndTime = s.votingEndTime
  ∧ (applyOp s op).candidateCount = s.candidateCount := by
  rcases op_shape op with ⟨a, b, c, d, e, f, rfl⟩ | ⟨a, b, rfl⟩ | ⟨a, b, rfl⟩
    | ⟨a, b, c, d, e, f, rfl⟩ | hadm
  · rcases applyOp_init_char s a b c d e f with ⟨-, hs⟩ | ⟨-, hinit, -⟩
    · rw [hs]; exact ⟨h, rfl, rfl, rfl, rfl⟩
    · rw [h] at hinit; cases hinit
  · rcases applyOp_add_char s a b with ⟨-, hs⟩ | ⟨hs, -⟩ <;> rw [hs] <;>
      exact ⟨h, rfl, rfl, rfl, rfl⟩
  · rcases applyOp_remove_char s a b with ⟨-, hs⟩ | ⟨hs, -⟩ <;> rw [hs] <;>
      exact ⟨h, rfl, rfl, rfl, rfl⟩
  · rcases applyOp_cast_char s a b c d e f with ⟨-, hs⟩ | ⟨-, hs, -⟩ <;> rw [hs] <;>
      exact ⟨h, rfl, rfl, rfl, rfl⟩
  · obtain ⟨h1, h2, h3, h4, -, -, -, h8, -⟩ := applyOp_admin_char s op hadm
    exact ⟨h4 ▸ h, h1, h2, h3, h8⟩

/-- Run-level versions by induction over the trace. -/
theorem used_run (s : State) (ops : List Op) (n : Nat) (h : s.usedNullifiers n = true) :
    (run s ops).usedNullifiers n = true := by
  induction ops generalizing s with
  | nil => exact h
  | cons op rest ih => exact ih (applyOp s op) (used_mono s op n h)

theorem config_run (s : State) (ops : List Op) (h : s.votingInitialized = true) :
    (run s ops).votingInitialized = true
  ∧ (run s ops).votingGroupId = s.votingGroupId
  ∧ (run s ops).votingStartTime = s.votingStartTime
  ∧ (run s ops).votingEndTime = s.votingEndTime
  ∧ (run s ops).candidateCount = s.candidateCount := by
  induction ops generalizing s with
  | nil => exact ⟨h, rfl, rfl, rfl, rfl⟩
  | cons op rest ih =>
    obtain ⟨h1, h2, h3, h4, h5⟩ := config_applyOp s op h
    obtain ⟨g1, g2, g3, g4, g5⟩ := ih (applyOp s op) h1
    exact ⟨g1, g2.trans h2, g3.trans h3, g4.trans h4, g5.trans h5⟩

theorem totalVotes_run (s : State) (ops : List Op) :
    (run s ops).totalVotes = s.totalVotes + succCount s ops := by
  induction ops generalizing s with
  | nil => rfl
  | cons op rest ih =>
    show (run (applyOp s op) rest).totalVotes = _
    rw [ih (applyOp s op), totalVotes_applyOp, succCount]
    omega

theorem succWith_zero (n : Nat) (s : State) (ops : List Op)
    (h : s.usedNullifiers n = true) : succCountWith n s ops = 0 := by
  induction ops generalizing s with
  | nil => rfl
  | cons op rest ih =>
    rw [succCountWith]
    have hcond : (castNullifier op == some n && exceptOk (step s op)) = false := by
      by_cases hc : castNullifier op = some n
      · obtain ⟨a, b, c, e, f, rfl⟩ := castNullifier_some hc
        rw [cast_fail_of_used h]
        simp
      · simp [beq_eq_false_iff_ne, hc]
    rw [hcond, ih (applyOp s op) (used_mono s op n h)]
    simp

theorem succWith_char (n : Nat) (s : State) (ops : List Op)
    (h : s.usedNullifiers n = false) :
    succCountWith n s ops
      = if (run s ops).usedNullifiers n = true then 1 else 0 := by
  induction ops generalizing s with
  | nil => simp [run, succCountWith, h]
  | cons op rest ih =>
    rw [succCountWith]
    show _ = if (run (applyOp s op) rest).usedNullifiers n = true then 1 else 0
    by_cases hcond : (castNullifier op == some n && exceptOk (step s op)) = true
    · obtain ⟨hcn, hok⟩ := Bool.and_eq_true_iff.mp hcond
      obtain ⟨a, b, c, e, f, rfl⟩ := castNullifier_some (beq_iff_eq.mp hcn)
      have hused := (cast_ok_used hok).1
      rw [hcond, succWith_zero n _ rest hused, used_run _ rest n hused]
      simp
    · rw [Bool.not_eq_true] at hcond
      have hpres : (applyOp s op).usedNullifiers n = s.usedNullifiers n := by
        apply used_preserved
        intro hcn
        rcases Bool.and_eq_false_iff.mp hcond with hl | hr
        · rw [beq_eq_false_iff_ne] at hl; exact absurd hcn hl
        · exact hr
      rw [hcond, ih (applyOp s op) (hpres.trans h)]
      simp

theorem succWith_le_one (n : Nat) (s : State) (ops : List Op) :
    succCountWith n s ops ≤ 1 := by
  by_cases h : s.usedNullifiers n = true
  · rw [succWith_zero n s ops h]; omega
  · rw [Bool.not_eq_true] at h
    rw [succWith_char n s ops h]
    split_ifs <;> omega

/-! ## The swap-remove loop of `removeRelayer` -/

theorem getLastD_cons_ne_nil {t : List Nat} (a d : Nat) (h : t ≠ []) :
    (a :: t).getLastD d = t.getLastD d := by
  cases t with
  | nil => exact absurd rfl h
  | cons b t2 => simp [List.getLastD_cons]

theorem dropLast_cons_ne_nil {t : List Nat} (a : Nat) (h : t ≠ []) :
    (a :: t).dropLast = a :: t.dropLast := by
  cases t with
  | nil => exact absurd rfl h
  | cons b t2 => rfl

theorem getLastD_cons_dropLast_perm (b : Nat) (t2 : List Nat) :
    List.Perm ((b :: t2).getLastD 0 :: (b :: t2).dropLast) (b :: t2) := by
  rcases hq : (b :: t2).getLast? with _ | x
  · rw [List.getLast?_eq_none_iff] at hq
    cases hq
  · have hEq : (b :: t2).getLastD 0 = x := by
      rw [List.getLastD_eq_getLast?, hq]
      rfl
    have hsplit : (b :: t2).dropLast ++ [x] = b :: t2 :=
      List.dropLast_append_getLast? x (by simp [hq])
    rw [hEq]
    have h1 : List.Perm (x :: (b :: t2).dropLast) ((b :: t2).dropLast ++ [x]) :=
      (List.perm_append_singleton x _).symm
    exact h1.trans (by rw [hsplit])

/-- The swap-remove loop produces a permutation of erasing the first
occurrence. -/
theorem swapRemoveFirst_perm (l : List Nat) (r : Nat) (h : r ∈ l) :
    List.Perm (swapRemoveFirst l r) (l.erase r) := by
  induction l with
  | nil => cases h
  | cons a t ih =>
    unfold swapRemoveFirst
    rw [if_pos (by simpa [List.elem_eq_mem] using h)]
    by_cases har : a = r
    · subst har
      rw [List.findIdx_cons]
      simp only [beq_self_eq_true, cond_true]
      rw [List.erase_cons_head]
      cases t with
      | nil => simp
      | cons b t2 =>
        rw [getLastD_cons_ne_nil a 0 (by simp)]
        show List.Perm (((b :: t2).getLastD 0 :: b :: t2).dropLast) (b :: t2)
        rw [dropLast_cons_ne_nil _ (by simp)]
        exact getLastD_cons_dropLast_perm b t2
    · have hrt : r ∈ t := by
        rcases List.mem_cons.mp h with h1 | h2
        · exact absurd h1.symm har
        · exact h2
      have htne : t ≠ [] := List.ne_nil_of_mem hrt
      rw [List.findIdx_cons]
      have hpa : (a == r) = false := beq_eq_false_iff_ne.mpr har
      rw [hpa, cond_false]
      rw [getLastD_cons_ne_nil a 0 htne]
      show List.Perm
        ((a :: t.set (t.findIdx (· == r)) (t.getLastD 0)).dropLast) ((a :: t).erase r)
      have hsetne : t.set (t.findIdx (· == r)) (t.getLastD 0) ≠ [] := by
        cases t with
        | nil => exact absurd rfl htne
        | cons b t2 =>
          cases hidx : (b :: t2).findIdx (· == r) <;> simp [List.set]
      rw [dropLast_cons_ne_nil _ hsetne]
      rw [List.erase_cons_tail (by simp [hpa])]
      apply List.Perm.cons
      have hrec := ih hrt
      unfold swapRemoveFirst at hrec
      rw [if_pos (by simpa [List.elem_eq_mem] using hrt)] at hrec
      exact hrec

theorem swapRemoveFirst_count (l : List Nat) (r a : Nat) (h : r ∈ l) :
    (swapRemoveFirst l r).count a = l.count a - (if a = r then 1 else 0) := by
  rw [(swapRemoveFirst_perm l r h).count_eq, List.count_erase]
  by_cases har : a = r
  · simp [har]
  · have hra : ¬ r = a := fun hh => har hh.symm
    simp [har, hra]

/-! ## Tally bookkeeping -/

theorem sum_range_update (f : Nat → Nat) (k cid : Nat) (h : cid < k) :
    Finset.sum (Finset.range k) (fun c => if c = cid then f c + 1 else f c)
      = Finset.sum (Finset.range k) f + 1 := by
  have hsplit : (fun c => if c = cid then f c + 1 else f c)
      = fun c => f c + (if c = cid then 1 else 0) := by
    funext c
    split_ifs <;> simp
  rw [hsplit, Finset.sum_add_distrib]
  congr 1
  rw [Finset.sum_ite_eq' (Finset.range k) cid fun _ => 1]
  simp [Finset.mem_range.mpr h]

/-! ## The reachable-state invariant -/

theorem inv_initState (owner : Nat) : Inv (initState owner) := by
  refine ⟨?_, ?_, ?_, ?_, rfl⟩
  · simp [tallySum, initState]
  · intro _
    exact ⟨rfl, rfl, fun i => rfl, rfl, rfl⟩
  · intro h
    cases h
  · intro a
    simp [initState]

theorem inv_applyOp {s : State} (op : Op) (hinv : Inv s) : Inv (applyOp s op) := by
  obtain ⟨h1, h2, h3, h4, h5⟩ := hinv
  rcases op_shape op with ⟨a, b, c, d, e, f, rfl⟩ | ⟨a, b, rfl⟩ | ⟨a, b, rfl⟩
    | ⟨a, b, c, d, e, f, rfl⟩ | hadm
  · rcases applyOp_init_char s a b c d e f with ⟨-, hs⟩ | ⟨hs, hninit, hlt, -, -, -⟩
    · rw [hs]
      exact ⟨h1, h2, h3, h4, h5⟩
    · obtain ⟨-, htv, hvc, -, -⟩ := h2 hninit
      rw [hs]
      refine ⟨?_, ?_, ?_, h4, h5⟩
      · show Finset.sum (Finset.range f) s.voteCounts = s.totalVotes
        rw [htv]
        exact Finset.sum_eq_zero fun i _ => hvc i
      · intro hfalse
        cases hfalse
      · intro _
        exact hlt
  · rcases applyOp_add_char s a b with ⟨-, hs⟩ | ⟨hs, hnz, hfresh, -⟩
    · rw [hs]
      exact ⟨h1, h2, h3, h4, h5⟩
    · rw [hs]
      refine ⟨h1, h2, h3, ?_, ?_⟩
      · intro x
        show (s.relayerAddresses ++ [b]).count x
          = if (if x = b then true else s.authorizedRelayers x) = true then 1 else 0
        rw [List.count_append]
        by_cases hxb : x = b
        · subst hxb
          rw [h4 x, hfresh]
          simp
        · rw [h4 x]
          have hbx : ¬ b = x := fun hh => hxb hh.symm
          simp [hxb, List.count_singleton', hbx]
      · show (if (0 : Nat) = b then true else s.authorizedRelayers 0) = false
        rw [if_neg fun hh => hnz hh.symm]
        exact h5
  · rcases applyOp_remove_char s a b with ⟨-, hs⟩ | ⟨hs, hauth, -⟩
    · rw [hs]
      exact ⟨h1, h2, h3, h4, h5⟩
    · have hcnt : s.relayerAddresses.count b = 1 := by rw [h4 b, if_pos hauth]
      have hmem : b ∈ s.relayerAddresses := by
        rw [← List.count_pos_iff]
        omega
      rw [hs]
      refine ⟨h1, h2, h3, ?_, ?_⟩
      · intro x
        show (swapRemoveFirst s.relayerAddresses b).count x
          = if (if x = b then false else s.authorizedRelayers x) = true then 1 else 0
        rw [swapRemoveFirst_count s.relayerAddresses b x hmem]
        by_cases hxb : x = b
        · subst hxb
          rw [hcnt]
          simp
        · rw [h4 x]
          simp [hxb]
      · show (if (0 : Nat) = b then false else s.authorizedRelayers 0) = false
        split_ifs
        · rfl
        · exact h5
  · rcases applyOp_cast_char s a b c d e f with ⟨-, hs⟩ | ⟨-, hs, -, hcid, -⟩
    · rw [hs]
      exact ⟨h1, h2, h3, h4, h5⟩
    · rw [hs]
      refine ⟨?_, ?_, ?_, h4, h5⟩
      · show Finset.sum (Finset.range s.candidateCount)
            (fun x => if x = c then s.voteCounts x + 1 else s.voteCounts x)
          = s.totalVotes + 1
        rw [sum_range_update s.voteCounts s.candidateCount c hcid]
        have h1a : Finset.sum (Finset.range s.candidateCount) s.voteCounts
            = s.totalVotes := h1
        rw [h1a]
      · intro hfalse
        exfalso
        have := (h2 hfalse).1
        omega
      · intro htrue
        exact h3 htrue
  · obtain ⟨hgid, hst, hen, hinit, hvc, hun, htv, hcc, hauth, hrel⟩ :=
      applyOp_admin_char s op hadm
    refine ⟨?_, ?_, ?_, ?_, ?_⟩
    · show tallySum (applyOp s op) = (applyOp s op).totalVotes
      unfold tallySum
      rw [hcc, hvc, htv]
      exact h1
    · intro hfalse
      rw [hinit] at hfalse
      obtain ⟨a1, a2, a3, a4, a5⟩ := h2 hfalse
      exact ⟨hcc.trans a1, htv.trans a2, fun i => by rw [hvc]; exact a3 i,
        hst.trans a4, hen.trans a5⟩
    · intro htrue
      rw [hinit] at htrue
      rw [hst, hen]
      exact h3 htrue
    · intro x
      rw [hrel, hauth]
      exact h4 x
    · rw [hauth]
      exact h5

theorem inv_run (s : State) (ops : List Op) (hinv : Inv s) : Inv (run s ops) := by
  induction ops generalizing s with
  | nil => exact hinv
  | cons op rest ih => exact ih (applyOp s op) (inv_applyOp op hinv)

/-- C1 counterexample: a later `castVote` call reusing a consumed nullifier
can fail with an error other than `NullifierAlreadyUsed` — here the second
call carries the already-used nullifier `42` but an out-of-range candidate, so
it reverts with `InvalidCandidate`, which is raised before the nullifier
check. -/
theorem nullifier_repeat_error_cex :
    exceptOk (step (run (initState 1)
        [.opInitializeVoting 1 5 0 10 20 2, .opAddRelayer 1 7])
        (.opCastVote 7 10 0 42 ⟨0, 42, 0, 0⟩ true)) = true
  ∧ errOf (step (run (initState 1)
        [.opInitializeVoting 1 5 0 10 20 2, .opAddRelayer 1 7,
         .opCastVote 7 10 0 42 ⟨0, 42, 0, 0⟩ true])
        (.opCastVote 7 10 5 42 ⟨5, 42, 0, 0⟩ true)) = some .InvalidCandidate
  ∧ Err.InvalidCandidate ≠ Err.NullifierAlreadyUsed :=
  ⟨by decide, by decide, by decide⟩

/-- C1 (amended): across any trace, at most one `castVote` call carrying a
given nullifier `n` succeeds — exactly one iff `n` ends up marked used; no op
ever unmarks a used nullifier; a `castVote` call reusing a consumed nullifier
never succeeds, and it reverts precisely with `NullifierAlreadyUsed` whenever
it passes the earlier pause/time-window/relayer/candidate gates (an earlier
gate may otherwise report its own error first); and `totalVotes` counts
exactly the successful `castVote` calls, so it increases by exactly one for
the at-most-one success carrying `n`. -/
theorem nullifier_single_use (owner n : Nat) (ops : List Op) :
    succCountWith n (initState owner) ops ≤ 1
  ∧ succCountWith n (initState owner) ops
      = (if (run (initState owner) ops).usedNullifiers n = true then 1 else 0)
  ∧ (∀ s op, s.usedNullifiers n = true → (applyOp s op).usedNullifiers n = true)
  ∧ (∀ s sender ts cid ps pv, s.usedNullifiers n = true →
        exceptOk (step s (.opCastVote sender ts cid n ps pv)) = false)
  ∧ (∀ s sender ts cid ps pv, s.usedNullifiers n = true →
        s.paused = false → s.votingStartTime ≤ ts → ts ≤ s.votingEndTime →
        s.authorizedRelayers sender = true → cid < s.candidateCount →
        cid = ps.signal →
        castVote s sender ts cid n ps pv = .error .NullifierAlreadyUsed)
  ∧ (run (initState owner) ops).totalVotes = succCount (initState owner) ops := by
  refine ⟨succWith_le_one n _ ops, succWith_char n _ ops rfl,
    fun s op h => used_mono s op n h,
    fun s sender ts cid ps pv h => cast_fail_of_used h,
    ?_, ?_⟩
  · intro s sender ts cid ps pv hused hp h2 h3 hauth h6 h7
    unfold castVote
    rw [if_neg (by simp [hp]), if_neg (by omega), if_neg (by simp [hauth]),
      if_neg (by omega), if_neg (by simp [h7]), if_pos hused]
  · rw [totalVotes_run]
    simp [initState]

/-- Witness for C1: on a concrete trace where nullifier `42` has been
consumed, an otherwise-valid resubmission reverts with
`NullifierAlreadyUsed`. -/
theorem nullifier_single_use_witness :
    castVote (run (initState 1)
        [.opInitializeVoting 1 5 0 10 20 2, .opAddRelayer 1 7,
         .opCastVote 7 10 0 42 ⟨0, 42, 0, 0⟩ true])
      7 11 0 42 ⟨0, 42, 0, 0⟩ true = .error .NullifierAlreadyUsed :=
  (nullifier_single_use 1 42 []).2.2.2.2.1
    (run (initState 1)
      [.opInitializeVoting 1 5 0 10 20 2, .opAddRelayer 1 7,
       .opCastVote 7 10 0 42 ⟨0, 42, 0, 0⟩ true])
    7 11 0 ⟨0, 42, 0, 0⟩ true
    (by decide) (by decide) (by decide) (by decide) (by decide) (by decide) (by decide)

/-- C3: after any call sequence from deployment in which `N` `castVote` calls
succeeded, the tally summed over all candidate ids in `[0, candidateCount)`
equals `totalVotes`, and both equal `N`; moreover no op ever decrements a
candidate's count or `totalVotes`. -/
theorem tally_conservation (owner : Nat) (ops : List Op) :
    tallySum (run (initState owner) ops) = (run (initState owner) ops).totalVotes
  ∧ (run (initState owner) ops).totalVotes = succCount (initState owner) ops
  ∧ (∀ s op i, s.voteCounts i ≤ (applyOp s op).voteCounts i)
  ∧ (∀ s op, s.totalVotes ≤ (applyOp s op).totalVotes) := by
  refine ⟨(inv_run (initState owner) ops (inv_initState owner)).1, ?_,
    voteCounts_mono, totalVotes_mono⟩
  rw [totalVotes_run]
  simp [initState]

/-- C2: every rejected `castVote` call leaves all core state unchanged (the
revert rolls the transaction back), and every successful `castVote` call
performs all four effects together — marks the nullifier used, increments the
chosen candidate's count by one, increments `totalVotes` by one, and emits one
`VoteCast` record — touching nothing else; no execution produces a strict
subset of these effects. -/
theorem castVote_atomic (s : State) (sender ts cid n : Nat) (ps : PublicSignals)
    (pv : Bool) :
    (∀ e, castVote s sender ts cid n ps pv = .error e →
        applyOp s (.opCastVote sender ts cid n ps pv) = s)
  ∧ (∀ s2 ev, castVote s sender ts cid n ps pv = .ok (s2, ev) →
        s2.usedNullifiers n = true
      ∧ s2.voteCounts cid = s.voteCounts cid + 1
      ∧ s2.totalVotes = s.totalVotes + 1
      ∧ ev = ⟨cid, n, sender, ts⟩
      ∧ (∀ c, c ≠ cid → s2.voteCounts c = s.voteCounts c)
      ∧ (∀ m, m ≠ n → s2.usedNullifiers m = s.usedNullifiers m)
      ∧ s2.authorizedRelayers = s.authorizedRelayers
      ∧ s2.relayerAddresses = s.relayerAddresses
      ∧ s2.votingGroupId = s.votingGroupId
      ∧ s2.votingStartTime = s.votingStartTime
      ∧ s2.votingEndTime = s.votingEndTime
      ∧ s2.candidateCount = s.candidateCount
      ∧ s2.votingInitialized = s.votingInitialized
      ∧ s2.paused = s.paused) := by
  constructor
  · intro e he
    have hstep : step s (.opCastVote sender ts cid n ps pv) = .error e := by
      simp [step, he, Except.map]
    exact applyOp_of_error hstep
  · intro s2 ev h
    obtain ⟨-, -, -, -, -, -, -, -, hs2, hev⟩ := castVote_ok_elim h
    subst hs2; subst hev
    refine ⟨by simp, by simp, rfl, rfl, ?_, ?_, rfl, rfl, rfl, rfl, rfl, rfl, rfl, rfl⟩
    · intro c hc; simp [hc]
    · intro m hm; simp [hm]

/-- Witness for C2: a concrete rejected call (unauthorized relayer on the
fresh contract) leaves the state unchanged. -/
theorem castVote_atomic_witness :
    applyOp (initState 1) (.opCastVote 7 0 0 42 ⟨0, 42, 0, 0⟩ true) = initState 1 :=
  (castVote_atomic (initState 1) 7 0 0 42 ⟨0, 42, 0, 0⟩ true).1 .UnauthorizedRelayer rfl

/-- C4: a `castVote` call whose `candidateId` differs from `publicSignals[0]`
never succeeds, in any state, and its outcome does not depend on the external
verifier's verdict (the mismatch is rejected before the verifier is
consulted). -/
theorem castVote_signal_binding (s : State) (sender ts cid n : Nat)
    (ps : PublicSignals) (pv pv2 : Bool) (h : cid ≠ ps.signal) :
    exceptOk (castVote s sender ts cid n ps pv) = false
  ∧ castVote s sender ts cid n ps pv = castVote s sender ts cid n ps pv2 := by
  unfold castVote
  constructor
  · split_ifs <;> simp_all [exceptOk]
  · split_ifs <;> simp_all

/-- Witness for C4: `castVote(candidateId = 1, ..., publicSignals[0] = 0, ...)`
fails even with an accepting verifier. -/
theorem castVote_signal_binding_witness :
    exceptOk (castVote (initState 1) 7 0 1 42 ⟨0, 42, 0, 0⟩ true) = false :=
  (castVote_signal_binding (initState 1) 7 0 1 42 ⟨0, 42, 0, 0⟩ true false
    (by decide)).1

/-- C5 counterexample: the contract reports the same error `VotingNotActive`
both strictly before `startTime` (Pending) and strictly after `endTime`
(Closed) — here at times 5 and 25 around the window `[10, 20]` — so a caller
cannot tell which temporal condition caused the rejection, and `castVote` has
no dedicated not-configured error at all. -/
theorem gate_errors_cex :
    errOf (castVote (run (initState 1)
        [.opInitializeVoting 1 5 0 10 20 2, .opAddRelayer 1 7])
        7 5 0 42 ⟨0, 42, 0, 0⟩ true) = some .VotingNotActive
  ∧ errOf (castVote (run (initState 1)
        [.opInitializeVoting 1 5 0 10 20 2, .opAddRelayer 1 7])
        7 25 0 43 ⟨0, 43, 0, 0⟩ true) = some .VotingNotActive :=
  ⟨by decide, by decide⟩

/-- C5 (amended): `castVote` distinguishes only two gate conditions: when
paused it reverts with the `Pausable` error `EnforcedPause` (checked first);
otherwise any call outside `[startTime, endTime]` reverts with the single
temporal error `VotingNotActive`, shared by the before-start, after-end and
not-yet-configured cases — an unconfigured reachable state has
`startTime = endTime = 0`, so it is rejected through the same check — and no
separate error identifies Pending versus Closed versus unconfigured. -/
theorem gate_errors (s : State) (sender ts cid n : Nat) (ps : PublicSignals)
    (pv : Bool) :
    (s.paused = true → castVote s sender ts cid n ps pv = .error .EnforcedPause)
  ∧ (s.paused = false → (ts < s.votingStartTime ∨ s.votingEndTime < ts) →
      castVote s sender ts cid n ps pv = .error .VotingNotActive)
  ∧ (∀ owner ops, (run (initState owner) ops).votingInitialized = false →
      (run (initState owner) ops).votingStartTime = 0
      ∧ (run (initState owner) ops).votingEndTime = 0)
  ∧ Err.EnforcedPause ≠ Err.VotingNotActive := by
  refine ⟨?_, ?_, ?_, by decide⟩
  · intro hp
    unfold castVote
    rw [if_pos hp]
  · intro hp ht
    unfold castVote
    rw [if_neg (by simp [hp]), if_pos ht]
  · intro owner ops hninit
    obtain ⟨-, h2, -, -, -⟩ := inv_run (initState owner) ops (inv_initState owner)
    obtain ⟨-, -, -, h4, h5⟩ := h2 hninit
    exact ⟨h4, h5⟩

/-- Witness for C5: on a concretely paused contract the vote reverts with the
distinct pause error. -/
theorem gate_errors_witness :
    castVote (run (initState 1) [.opPauseVoting 1]) 7 0 0 42 ⟨0, 42, 0, 0⟩ true
      = .error .EnforcedPause :=
  (gate_errors (run (initState 1) [.opPauseVoting 1]) 7 0 0 42 ⟨0, 42, 0, 0⟩
    true).1 (by decide)

/-- C6 counterexample: after a successful `initializeVoting`, a second call by
a non-owner account fails with the `Ownable` authorization error, not with
`VotingAlreadyInitialized`. -/
theorem single_config_cex :
    exceptOk (initializeVoting (initState 1) 1 5 0 10 20 2) = true
  ∧ errOf (initializeVoting (run (initState 1) [.opInitializeVoting 1 5 0 10 20 2])
        2 5 0 10 20 2) = some .OwnableUnauthorizedAccount
  ∧ Err.OwnableUnauthorizedAccount ≠ Err.VotingAlreadyInitialized :=
  ⟨by decide, by decide, by decide⟩

/-- C6 (amended): once a round is configured, every later `initializeVoting`
call fails — with `VotingAlreadyInitialized` when the caller is the current
owner, and with the `Ownable` authorization error otherwise — and every
sequence of further calls leaves the stored configuration (`groupId`,
`startTime`, `endTime`, `candidateCount`) exactly as the successful call set
it. -/
theorem single_config (s : State) (h : s.votingInitialized = true) :
    (∀ sender ts g st en c, sender = s.owner →
        initializeVoting s sender ts g st en c = .error .VotingAlreadyInitialized)
  ∧ (∀ sender ts g st en c, sender ≠ s.owner →
        initializeVoting s sender ts g st en c = .error .OwnableUnauthorizedAccount)
  ∧ (∀ ops, (run s ops).votingInitialized = true
      ∧ (run s ops).votingGroupId = s.votingGroupId
      ∧ (run s ops).votingStartTime = s.votingStartTime
      ∧ (run s ops).votingEndTime = s.votingEndTime
      ∧ (run s ops).candidateCount = s.candidateCount) := by
  refine ⟨?_, ?_, fun ops => config_run s ops h⟩
  · intro sender ts g st en c hown
    unfold initializeVoting
    rw [if_neg (by simp [hown]), if_pos h]
  · intro sender ts g st en c hown
    unfold initializeVoting
    rw [if_pos hown]

/-- Witness for C6: the owner's own second configuration attempt reverts with
`VotingAlreadyInitialized`. -/
theorem single_config_witness :
    initializeVoting (run (initState 1) [.opInitializeVoting 1 5 0 10 20 2])
      1 6 9 30 40 3 = .error .VotingAlreadyInitialized :=
  (single_config (run (initState 1) [.opInitializeVoting 1 5 0 10 20 2])
    (by decide)).1 1 6 9 30 40 3 (by decide)

/-- C7 counterexample: a first `initializeVoting` whose `startTime` equals the
current block time — a start that is *not* in the future — succeeds, because
the contract only rejects `_startTime < block.timestamp`. -/
theorem first_config_cex :
    exceptOk (initializeVoting (initState 1) 1 100 5 100 200 3) = true
  ∧ ¬ 100 < 100 :=
  ⟨by decide, by decide⟩

/-- C7 (amended): a first `initializeVoting` by the owner succeeds exactly
when `startTime < endTime`, `startTime` is not in the past (`startTime ≥`
the current block time; equality with "now" is allowed, and the end's
futurity follows), and `candidateCount > 0`; a time violation reverts with
`InvalidTimeRange`, a zero candidate count reverts with the
`InvalidCandidate` (zero-candidates) error, a reverted call stores nothing,
and a successful call stores exactly its arguments. -/
theorem first_config (s : State) (sender ts g st en c : Nat)
    (hinit : s.votingInitialized = false) (hown : sender = s.owner) :
    (exceptOk (initializeVoting s sender ts g st en c) = true
      ↔ (st < en ∧ ts ≤ st ∧ c ≠ 0))
  ∧ ((en ≤ st ∨ st < ts) →
      initializeVoting s sender ts g st en c = .error .InvalidTimeRange)
  ∧ (st < en → ts ≤ st → c = 0 →
      initializeVoting s sender ts g st en c = .error .InvalidCandidate)
  ∧ (∀ s2, initializeVoting s sender ts g st en c = .ok s2 →
      s2.votingGroupId = g ∧ s2.votingStartTime = st ∧ s2.votingEndTime = en
      ∧ s2.candidateCount = c ∧ s2.votingInitialized = true)
  ∧ (∀ e, initializeVoting s sender ts g st en c = .error e →
      applyOp s (.opInitializeVoting sender ts g st en c) = s) := by
  have hbase : initializeVoting s sender ts g st en c
      = if st ≥ en ∨ st < ts then Except.error Err.InvalidTimeRange
        else if c = 0 then Except.error Err.InvalidCandidate
        else Except.ok { s with
          votingGroupId := g
          votingStartTime := st
          votingEndTime := en
          candidateCount := c
          votingInitialized := true } := by
    unfold initializeVoting
    rw [if_neg (by simp [hown]), if_neg (by simp [hinit])]
  refine ⟨?_, ?_, ?_, ?_, ?_⟩
  · rw [hbase]
    constructor
    · intro hok
      by_cases h1 : st ≥ en ∨ st < ts
      · rw [if_pos h1] at hok
        simp [exceptOk] at hok
      · by_cases h2 : c = 0
        · rw [if_neg h1, if_pos h2] at hok
          simp [exceptOk] at hok
        · push_neg at h1
          exact ⟨h1.1, h1.2, h2⟩
    · rintro ⟨hlt, hts, hc⟩
      rw [if_neg (by omega), if_neg hc]
      rfl
  · intro h1
    rw [hbase, if_pos (by omega)]
  · intro hlt hts hc
    rw [hbase, if_neg (by omega), if_pos hc]
  · intro s2 hok
    rw [hbase] at hok
    split_ifs at hok with h1 h2
    rw [Except.ok.injEq] at hok
    subst hok
    exact ⟨rfl, rfl, rfl, rfl, rfl⟩
  · intro e he
    have hstep : step s (.opInitializeVoting sender ts g st en c) = .error e := by
      simp [step, he]
    exact applyOp_of_error hstep

/-- Witness for C7: a concrete first configuration with a valid window and a
positive candidate count succeeds. -/
theorem first_config_witness :
    exceptOk (initializeVoting (initState 1) 1 90 5 100 200 3) = true :=
  (first_config (initState 1) 1 90 5 100 200 3 rfl rfl).1.mpr (by decide)

/-- `VotingNotActive` is only ever raised strictly outside the window. -/
theorem castVote_time_err {s : State} {sender ts cid n : Nat} {ps : PublicSignals}
    {pv : Bool}
    (h : errOf (castVote s sender ts cid n ps pv) = some Err.VotingNotActive) :
    ts < s.votingStartTime ∨ s.votingEndTime < ts := by
  unfold castVote at h
  split_ifs at h with h1 h2 h3 h4 h5 h6 h7 <;> simp_all [errOf]

/-- C9: the voting window is inclusive at both ends: on any reachable
configured, unpaused state, `isVotingActive` is true both at `startTime` and
at `endTime` exactly, a `castVote` call at either boundary instant is never
rejected by the time gate (`VotingNotActive`), and that error only occurs
strictly before `startTime` or strictly after `endTime`. -/
theorem inclusive_window (owner : Nat) (ops : List Op) (s : State)
    (hs : s = run (initState owner) ops)
    (hinit : s.votingInitialized = true) (hp : s.paused = false) :
    isVotingActive s s.votingStartTime = true
  ∧ isVotingActive s s.votingEndTime = true
  ∧ (∀ sender cid n ps pv,
      errOf (castVote s sender s.votingStartTime cid n ps pv)
          ≠ some .VotingNotActive
      ∧ errOf (castVote s sender s.votingEndTime cid n ps pv)
          ≠ some .VotingNotActive)
  ∧ (∀ ts sender cid n ps pv,
      errOf (castVote s sender ts cid n ps pv) = some .VotingNotActive →
      ts < s.votingStartTime ∨ s.votingEndTime < ts) := by
  have hse : s.votingStartTime ≤ s.votingEndTime := by
    subst hs
    exact le_of_lt ((inv_run _ ops (inv_initState owner)).2.2.1 hinit)
  refine ⟨?_, ?_, ?_, fun ts sender cid n ps pv h => castVote_time_err h⟩
  · simp [isVotingActive, hinit, hp, hse]
  · simp [isVotingActive, hinit, hp, hse]
  · intro sender cid n ps pv
    constructor
    · intro hcontra
      rcases castVote_time_err hcontra with hlt | hlt <;> omega
    · intro hcontra
      rcases castVote_time_err hcontra with hlt | hlt <;> omega

/-- Witness for C9: on a concrete configured round the boundary instants are
active. -/
theorem inclusive_window_witness :
    isVotingActive (run (initState 1) [.opInitializeVoting 1 5 0 10 20 2])
      (run (initState 1) [.opInitializeVoting 1 5 0 10 20 2]).votingStartTime
      = true :=
  (inclusive_window 1 [.opInitializeVoting 1 5 0 10 20 2]
    (run (initState 1) [.opInitializeVoting 1 5 0 10 20 2]) rfl
    (by decide) (by decide)).1

/-- C10: on every reachable state, an address occurs in the relayer array
exactly once iff its `authorizedRelayers` flag is set (and never more than
once); the zero address is never a member; and adding an already-registered
relayer or removing an absent one fails, leaving the state unchanged. -/
theorem relayer_registry (owner : Nat) (ops : List Op) :
    (∀ a, ((run (initState owner) ops).relayerAddresses.count a = 1
        ↔ (run (initState owner) ops).authorizedRelayers a = true)
      ∧ (run (initState owner) ops).relayerAddresses.count a ≤ 1)
  ∧ (0 : Nat) ∉ (run (initState owner) ops).relayerAddresses
  ∧ (∀ s sender r, s.authorizedRelayers r = true →
      exceptOk (step s (.opAddRelayer sender r)) = false
      ∧ applyOp s (.opAddRelayer sender r) = s)
  ∧ (∀ s sender r, s.authorizedRelayers r = false →
      exceptOk (step s (.opRemoveRelayer sender r)) = false
      ∧ applyOp s (.opRemoveRelayer sender r) = s) := by
  obtain ⟨-, -, -, h4, h5⟩ := inv_run (initState owner) ops (inv_initState owner)
  refine ⟨?_, ?_, ?_, ?_⟩
  · intro a
    rw [h4 a]
    constructor
    · constructor
      · intro h
        split_ifs at h with hh
        exact hh
      · intro h
        rw [if_pos h]
    · split_ifs <;> omega
  · rw [← List.count_eq_zero, h4 0, if_neg (by simp [h5])]
  · intro s sender r hauth
    rcases applyOp_add_char s sender r with ⟨hf, hst⟩ | ⟨-, -, hfresh, -⟩
    · exact ⟨hf, hst⟩
    · rw [hauth] at hfresh
      cases hfresh
  · intro s sender r hnauth
    rcases applyOp_remove_char s sender r with ⟨hf, hst⟩ | ⟨-, hauth, -⟩
    · exact ⟨hf, hst⟩
    · rw [hnauth] at hauth
      cases hauth

/-- Witness for C10: concretely re-adding relayer `7` after a successful add
fails and changes nothing. -/
theorem relayer_registry_witness :
    exceptOk (step (run (initState 1) [.opAddRelayer 1 7]) (.opAddRelayer 1 7))
      = false :=
  ((relayer_registry 1 []).2.2.1 (run (initState 1) [.opAddRelayer 1 7]) 1 7
    (by decide)).1

/-- `Math.floor(r * length)` is a valid index for `0 ≤ r < 1` on a nonempty
array. -/
theorem floor_rand_lt (l : List Nat) (r : Rat) (h0 : 0 ≤ r) (h1 : r < 1)
    (hne : l ≠ []) : (Int.floor (r * (l.length : Rat))).toNat < l.length := by
  have hlen : 0 < ((l.length : Nat) : Rat) := by
    exact_mod_cast List.length_pos.mpr hne
  have hmul : r * (l.length : Rat) < ((l.length : Nat) : Rat) := by
    calc r * (l.length : Rat) < 1 * (l.length : Rat) :=
          mul_lt_mul_of_pos_right h1 hlen
      _ = (l.length : Rat) := one_mul _
  have hfloor : Int.floor (r * (l.length : Rat)) < ((l.length : Nat) : Int) := by
    rw [Int.floor_lt]
    push_cast
    exact hmul
  have hnonneg : (0 : Int) ≤ Int.floor (r * (l.length : Rat)) := by
    apply Int.floor_nonneg.mpr
    positivity
  omega

theorem getD_mem (l : List Nat) (i : Nat) (h : i < l.length) : l.getD i 0 ∈ l := by
  induction l generalizing i with
  | nil => simp at h
  | cons a t ih =>
    cases i with
    | zero => simp [List.getD]
    | succ j =>
      have hj : j < t.length := by simpa using h
      have : (a :: t).getD (j + 1) 0 = t.getD j 0 := rfl
      rw [this]
      exact List.mem_cons_of_mem a (ih j hj)

/-- C8: both relayer-selection helpers return a member of the current registry
whenever it is nonempty, and on an empty registry they fail with their
distinguishable no-relayer error message rather than blocking or returning a
value; this holds for every `Math.random()` sample `r` with `0 ≤ r < 1`. -/
theorem relayer_selection (wallets relayers : List Nat) (r : Rat)
    (h0 : 0 ≤ r) (h1 : r < 1) :
    (wallets ≠ [] → exceptOk (selectRandomRelayer wallets r) = true
      ∧ ∀ w, selectRandomRelayer wallets r = .ok w → w ∈ wallets)
  ∧ (wallets = [] →
      selectRandomRelayer wallets r = .error "No relayer wallets available")
  ∧ (relayers ≠ [] → exceptOk (getRandomRelayer relayers r) = true
      ∧ ∀ w, getRandomRelayer relayers r = .ok w → w ∈ relayers)
  ∧ (relayers = [] →
      getRandomRelayer relayers r = .error "No authorized relayers found") := by
  refine ⟨?_, ?_, ?_, ?_⟩
  · intro hne
    have hlen : ¬ wallets.length = 0 := by
      simpa [List.length_eq_zero] using hne
    unfold selectRandomRelayer
    rw [if_neg hlen]
    refine ⟨rfl, ?_⟩
    intro w hw
    rw [Except.ok.injEq] at hw
    rw [← hw]
    exact getD_mem _ _ (floor_rand_lt wallets r h0 h1 hne)
  · intro he
    unfold selectRandomRelayer
    rw [if_pos (by simp [he])]
  · intro hne
    have hlen : ¬ relayers.length = 0 := by
      simpa [List.length_eq_zero] using hne
    unfold getRandomRelayer
    rw [if_neg hlen]
    refine ⟨rfl, ?_⟩
    intro w hw
    rw [Except.ok.injEq] at hw
    rw [← hw]
    exact getD_mem _ _ (floor_rand_lt relayers r h0 h1 hne)
  · intro he
    unfold getRandomRelayer
    rw [if_pos (by simp [he])]

/-- Witness for C8: selection over the one-element pool `[8]` with sample `0`
succeeds. -/
theorem relayer_selection_witness :
    exceptOk (selectRandomRelayer [8] 0) = true :=
  ((relayer_selection [8] [] 0 (le_refl 0) zero_lt_one).1 (by simp)).1

end VotingSystem
